import Mathlib

/-!
Verification of the lead-scraper frontend (`static/script.js`).

The file shallowly embeds the client-side code of the repository:
the CSV export encoder `exportToCSV`, and the request lifecycle of
`startScraping` (validation, fetch, error handling, button
disabling) as an explicit event trace acting on a client state.
JavaScript strings are Lean `String`s; JavaScript numbers appearing
in lead records (`rating`, `reviews_count`) are modelled as natural
numbers; `undefined`/missing fields are `Option`; the JavaScript
falsy coercions (`x || ''`, `if (!query)`, `if (data.error)`) are
made explicit.
-/

namespace Scraper

/-- One scraped business entry, the lead record of the data model:
`name`, optional `address`, `phone`, `website`, `category`, and
optional numeric `rating` and `reviews_count`. -/
structure Lead where
  name : String
  address : Option String
  phone : Option String
  website : Option String
  rating : Option Nat
  reviews_count : Option Nat
  category : Option String
deriving DecidableEq, Repr

/-- The stats block of a successful `/scrape` response:
`{total, with_phone, with_website}`. -/
structure Stats where
  total : Nat
  with_phone : Nat
  with_website : Nat
deriving DecidableEq, Repr

/-- JavaScript `s || ''` on an optional string: a missing value (and
the empty string itself, which is falsy) coerces to `''`. -/
def jsOrEmpty (o : Option String) : String :=
  match o with
  | none => ""
  | some s => s

/-- JavaScript `v || ''` on an optional number: `undefined` and `0`
are falsy and coerce to the empty string; any other number is
rendered by decimal `String` coercion. -/
def numField (o : Option Nat) : String :=
  match o with
  | none => ""
  | some n => if n = 0 then "" else Nat.repr n

/-- Naive CSV quoting as in `exportToCSV`: the template literal
`"${value}"` wraps the value in double quotes without escaping
anything. -/
def quoteField (s : String) : String :=
  "\"" ++ s ++ "\""

/-- The `headers` array of `exportToCSV`. -/
def headers : List String :=
  ["Name", "Address", "Phone", "Website", "Rating", "Reviews", "Category"]

/-- `headers.join(",")`: the header row of the exported CSV. -/
def csvHeader : String :=
  String.intercalate "," headers

/-- The seven cell strings of one exported row, in source order:
quoted string fields (with the `|| ''` coercion on the optional
ones), unquoted numeric fields. -/
def leadCells (l : Lead) : List String :=
  [quoteField l.name,
   quoteField (jsOrEmpty l.address),
   quoteField (jsOrEmpty l.phone),
   quoteField (jsOrEmpty l.website),
   numField l.rating,
   numField l.reviews_count,
   quoteField (jsOrEmpty l.category)]

/-- One exported CSV row: `[...].join(",")`. -/
def leadRow (l : Lead) : String :=
  String.intercalate "," (leadCells l)

/-- The `csvContent` string of `exportToCSV`: header row followed by
one row per lead, all joined by `"\n"`. -/
def csvContent (leads : List Lead) : String :=
  String.intercalate "\n" (csvHeader :: leads.map leadRow)

/-- Outcome of clicking Export: either the `alert("No leads to
export")` early return, or a produced CSV document. -/
inductive ExportResult where
  | noLeadsAlert
  | csv (content : String)
deriving DecidableEq, Repr

/-- `exportToCSV`: refuses an empty collection with an alert,
otherwise builds the CSV text. -/
def exportToCSV (leads : List Lead) : ExportResult :=
  if leads.length = 0 then ExportResult.noLeadsAlert
  else ExportResult.csv (csvContent leads)

/-! ### The `startScraping` request lifecycle -/

/-- The JSON body of a `/scrape` response as the client reads it:
an optional `error` field, and the `leads`/`stats` payload used on
the success path. -/
structure ResponseData where
  error : Option String
  leads : List Lead
  stats : Stats
deriving DecidableEq, Repr

/-- Behaviour of the server for one `fetch("/scrape", ...)` call:
either a JSON reply or a network failure that makes `await fetch`
throw. -/
inductive ServerBehavior where
  | reply (data : ResponseData)
  | networkFailure
deriving DecidableEq, Repr

/-- JavaScript truthiness of `data.error`: an absent field and the
empty string are falsy. -/
def jsTruthyStr (o : Option String) : Bool :=
  match o with
  | none => false
  | some s => s ≠ ""

/-- Observable steps performed by `startScraping`, in program
order. `btnSet b` is `showLoading`: it sets `scrapeBtn.disabled`
to `b` (and toggles the spinner); `fetchIssued` is the moment the
`fetch` request leaves; `fetchCompleted`/`fetchFailed` end the
in-flight window on the reply and throw paths. -/
inductive UiEvent where
  | errorShown (msg : String)
  | btnSet (disabled : Bool)
  | resultsCleared
  | fetchIssued
  | fetchCompleted
  | fetchFailed
  | leadsStored (ls : List Lead)
  | resultsDisplayed
  | statsShown (s : Stats)
  | exportShown (visible : Bool)
deriving DecidableEq, Repr

/-- The event trace of one `startScraping` call, read off the
source line by line: empty-query validation first (before
`showLoading`/`clearResults`), then the guarded fetch with its
error-reply, success and catch paths, and the `finally` block
re-enabling the button on every path that reached the fetch. -/
def scrapeEvents (query : String) (resp : ServerBehavior) : List UiEvent :=
  if query = "" then
    [UiEvent.errorShown "Please enter a search query"]
  else
    [UiEvent.btnSet true, UiEvent.resultsCleared, UiEvent.fetchIssued] ++
    (match resp with
     | ServerBehavior.networkFailure =>
        [UiEvent.fetchFailed,
         UiEvent.errorShown "An error occurred while scraping. Please try again."]
     | ServerBehavior.reply d =>
        [UiEvent.fetchCompleted] ++
        (if jsTruthyStr d.error then
          [UiEvent.errorShown (jsOrEmpty d.error)]
         else
          [UiEvent.leadsStored d.leads, UiEvent.resultsDisplayed,
           UiEvent.statsShown d.stats, UiEvent.exportShown true])) ++
    [UiEvent.btnSet false]

/-- Client-side state touched by `startScraping`: the stored
`this.leads`, the submit button's `disabled` flag, the last error
message rendered into the results pane, the stats display and the
export section visibility. -/
structure ClientState where
  leads : List Lead
  btnDisabled : Bool
  lastError : Option String
  shownStats : Option Stats
  exportVisible : Bool
deriving DecidableEq, Repr

/-- Effect of one observable step on the client state.  Events that
only touch the DOM presentation (`resultsCleared`,
`resultsDisplayed`, the fetch markers) leave the modelled state
unchanged; in particular `clearResults` does not touch
`this.leads`. -/
def applyEvent (st : ClientState) (e : UiEvent) : ClientState :=
  match e with
  | UiEvent.errorShown m => { st with lastError := some m }
  | UiEvent.btnSet b => { st with btnDisabled := b }
  | UiEvent.resultsCleared => st
  | UiEvent.fetchIssued => st
  | UiEvent.fetchCompleted => st
  | UiEvent.fetchFailed => st
  | UiEvent.leadsStored ls => { st with leads := ls }
  | UiEvent.resultsDisplayed => st
  | UiEvent.statsShown s => { st with shownStats := some s }
  | UiEvent.exportShown b => { st with exportVisible := b }

/-- `startScraping` as a state transformer: fold the event trace
over the client state. -/
def startScraping (query : String) (resp : ServerBehavior)
    (st : ClientState) : ClientState :=
  (scrapeEvents query resp).foldl applyEvent st

/-- A response that the client treats as a failure: the fetch threw,
or the reply carries a truthy `error` field. -/
def isFailedResponse (resp : ServerBehavior) : Bool :=
  match resp with
  | ServerBehavior.networkFailure => true
  | ServerBehavior.reply d => jsTruthyStr d.error

/-! ### Mutual-exclusion checker for the in-flight window

A small monitor folded over an event trace: it tracks the submit
button's `disabled` flag and whether a fetch is in flight, and
records a violation if the trace ever has a fetch in flight while
the button is enabled.  At the end of the trace no fetch may remain
in flight, and if a fetch happened the button must be enabled
again. -/

structure ExclState where
  disabled : Bool
  inFlight : Bool
  everFetched : Bool
  ok : Bool
deriving DecidableEq, Repr

def exclStep (s : ExclState) (e : UiEvent) : ExclState :=
  let t :=
    match e with
    | UiEvent.btnSet b => { s with disabled := b }
    | UiEvent.fetchIssued => { s with inFlight := true, everFetched := true }
    | UiEvent.fetchCompleted => { s with inFlight := false }
    | UiEvent.fetchFailed => { s with inFlight := false }
    | _ => s
  if t.inFlight && !t.disabled then { t with ok := false } else t

def exclusionCheck (trace : List UiEvent) : Bool :=
  let f := trace.foldl exclStep ⟨false, false, false, true⟩
  f.ok && !f.inFlight && (!f.everFetched || !f.disabled)

/-! ### RFC 4180 escaping (the fix the spec mandates)

Modelled from the spec: the repository's encoder wraps fields in
double quotes without escaping; the spec requires embedded double
quotes to be doubled per RFC 4180.  `escQ`/`escapeQuotes` and the
`Fixed` encoder below follow the spec's words; everything else is
the source behaviour. -/

/-- Double every `"` character of a character list. -/
def escQ : List Char → List Char
  | [] => []
  | c :: t => if c = '"' then '"' :: '"' :: escQ t else c :: escQ t

/-- Modelled from the spec: escape a field value by doubling every
embedded double quote (RFC 4180). -/
def escapeQuotes (s : String) : String :=
  String.mk (escQ s.data)

/-- Modelled from the spec: quote a string field after escaping its
embedded double quotes. -/
def quoteFieldEsc (s : String) : String :=
  "\"" ++ escapeQuotes s ++ "\""

/-- Modelled from the spec: the cells of one row under the
RFC-4180 escaping fix; identical to `leadCells` except that string
fields are escaped before quoting. -/
def leadCellsFixed (l : Lead) : List String :=
  [quoteFieldEsc l.name,
   quoteFieldEsc (jsOrEmpty l.address),
   quoteFieldEsc (jsOrEmpty l.phone),
   quoteFieldEsc (jsOrEmpty l.website),
   numField l.rating,
   numField l.reviews_count,
   quoteFieldEsc (jsOrEmpty l.category)]

/-- Modelled from the spec: one exported row under the escaping
fix. -/
def leadRowFixed (l : Lead) : String :=
  String.intercalate "," (leadCellsFixed l)

/-- Modelled from the spec: the CSV text under the escaping fix. -/
def csvContentFixed (leads : List Lead) : String :=
  String.intercalate "\n" (csvHeader :: leads.map leadRowFixed)

/-! ### A standard RFC 4180 reader

Used to state the round-trip claims: a character-level state
machine that reads quoted fields (with doubled quotes unescaped to
a single quote), unquoted fields, `,` separators and `\n` row
separators. -/

inductive PMode where
  | start
  | unquoted
  | quoted
  | closed
deriving DecidableEq, Repr

structure PState where
  mode : PMode
  field : List Char
  row : List (List Char)
  rows : List (List (List Char))
deriving DecidableEq, Repr

/-- End the current field at a `,`. -/
def flushField (st : PState) : PState :=
  ⟨PMode.start, [], st.row ++ [st.field], st.rows⟩

/-- End the current field and row at a `\n`. -/
def flushRow (st : PState) : PState :=
  ⟨PMode.start, [], [], st.rows ++ [st.row ++ [st.field]]⟩

/-- One character of the RFC 4180 reader. -/
def pstep (st : PState) (c : Char) : PState :=
  match st.mode with
  | PMode.quoted =>
      if c = '"' then { st with mode := PMode.closed }
      else { st with field := st.field ++ [c] }
  | PMode.closed =>
      if c = '"' then { st with mode := PMode.quoted, field := st.field ++ ['"'] }
      else if c = ',' then flushField st
      else if c = '\n' then flushRow st
      else st
  | PMode.start =>
      if c = '"' then { st with mode := PMode.quoted }
      else if c = ',' then flushField st
      else if c = '\n' then flushRow st
      else { st with mode := PMode.unquoted, field := st.field ++ [c] }
  | PMode.unquoted =>
      if c = ',' then flushField st
      else if c = '\n' then flushRow st
      else { st with field := st.field ++ [c] }

/-- Flush the final field and row of the reader state. -/
def finishParse (st : PState) : List (List (List Char)) :=
  st.rows ++ [st.row ++ [st.field]]

/-- Parse a full character stream: fold the reader and flush the
final field and row. -/
def parseCSVChars (cs : List Char) : List (List (List Char)) :=
  finishParse (cs.foldl pstep ⟨PMode.start, [], [], []⟩)

/-- Parse CSV text into rows of string fields. -/
def parseCSV (s : String) : List (List String) :=
  (parseCSVChars s.data).map (fun r => r.map String.mk)

/-- The field values one row of the export should parse back to:
the lead's data rendered through the same JavaScript coercions the
encoder applies (`|| ''` on optional strings and numbers). -/
def leadFields (l : Lead) : List String :=
  [l.name,
   jsOrEmpty l.address,
   jsOrEmpty l.phone,
   jsOrEmpty l.website,
   numField l.rating,
   numField l.reviews_count,
   jsOrEmpty l.category]

/-- No CSV-special character: the character is not a double quote,
comma or newline. -/
def plainChar (c : Char) : Bool :=
  !(c == '"' || c == ',' || c == '\n')

/-- A string free of CSV-special characters. -/
def noEdge (s : String) : Bool :=
  s.data.all plainChar

/-- A lead whose emitted string fields are all free of CSV-special
characters (the "no edge-case characters" hypothesis of the
round-trip claim). -/
def edgeFreeLead (l : Lead) : Bool :=
  noEdge l.name && noEdge (jsOrEmpty l.address) && noEdge (jsOrEmpty l.phone) &&
    noEdge (jsOrEmpty l.website) && noEdge (jsOrEmpty l.category)

/-! ### Join helper used to relate `String.intercalate` to the
character level -/

/-- Character-level separator join. -/
def joinSep (sep : List Char) : List (List Char) → List Char
  | [] => []
  | [x] => x
  | x :: y :: t => x ++ sep ++ joinSep sep (y :: t)

/-! ### Parsing specifications for encoded fragments

`FieldEnc e v`: the character fragment `e`, read from field-start
mode, accumulates exactly the field value `v` and ends outside a
quoted section, leaving the surrounding row and rows untouched.
`RowEnc` and `CsvEnc` lift this to one encoded row and to a whole
document. -/

def FieldEnc (e v : List Char) : Prop :=
  ∀ (f₀ : List Char) (r : List (List Char)) (rs : List (List (List Char))),
    ∃ m, m ≠ PMode.quoted ∧
      List.foldl pstep ⟨PMode.start, f₀, r, rs⟩ e = ⟨m, f₀ ++ v, r, rs⟩

def RowEnc (e : List Char) (vs : List (List Char)) : Prop :=
  ∀ (r : List (List Char)) (rs : List (List (List Char))),
    ∃ m f rest, m ≠ PMode.quoted ∧ rest ++ [f] = vs ∧
      List.foldl pstep ⟨PMode.start, [], r, rs⟩ e = ⟨m, f, r ++ rest, rs⟩

def CsvEnc (e : List Char) (out : List (List (List Char))) : Prop :=
  ∀ rs, finishParse (List.foldl pstep ⟨PMode.start, [], [], rs⟩ e) = rs ++ out

/-! ## Helper lemmas -/

lemma digitChar_isDigit (k : Nat) (h : k < 10) :
    (Nat.digitChar k).isDigit = true := by
  interval_cases k <;> decide

lemma toDigitsCore_isDigit (fuel : Nat) : ∀ (n : Nat) (ds : List Char),
    (∀ c ∈ ds, c.isDigit = true) →
    ∀ c ∈ Nat.toDigitsCore 10 fuel n ds, c.isDigit = true := by
  induction fuel with
  | zero =>
      intro n ds hds c hc
      simp only [Nat.toDigitsCore] at hc
      exact hds c hc
  | succ fuel ih =>
      intro n ds hds c hc
      simp only [Nat.toDigitsCore] at hc
      have hd : ∀ x ∈ Nat.digitChar (n % 10) :: ds, x.isDigit = true := by
        intro x hx
        rcases List.mem_cons.mp hx with rfl | hx
        · exact digitChar_isDigit _ (Nat.mod_lt _ (by norm_num))
        · exact hds x hx
      by_cases hz : n / 10 = 0
      · rw [if_pos hz] at hc
        exact hd c hc
      · rw [if_neg hz] at hc
        exact ih (n / 10) _ hd c hc

lemma repr_isDigit (n : Nat) : ∀ c ∈ (Nat.repr n).data, c.isDigit = true := by
  intro c hc
  have : (Nat.repr n).data = Nat.toDigitsCore 10 (n + 1) n [] := rfl
  rw [this] at hc
  exact toDigitsCore_isDigit (n + 1) n [] (by simp) c hc

lemma isDigit_plainChar (c : Char) (h : c.isDigit = true) : plainChar c = true := by
  unfold plainChar
  rcases eq_or_ne c '"' with rfl | h1
  · exact absurd h (by decide)
  rcases eq_or_ne c ',' with rfl | h2
  · exact absurd h (by decide)
  rcases eq_or_ne c '\n' with rfl | h3
  · exact absurd h (by decide)
  simp [h1, h2, h3]

lemma noEdge_repr (n : Nat) : noEdge (Nat.repr n) = true := by
  unfold noEdge
  rw [List.all_eq_true]
  intro c hc
  exact isDigit_plainChar c (repr_isDigit n c hc)

lemma noEdge_numField (o : Option Nat) : noEdge (numField o) = true := by
  cases o with
  | none => decide
  | some n =>
      by_cases hz : n = 0
      · simp [numField, hz]; decide
      · simpa [numField, hz] using noEdge_repr n

lemma quote_not_mem_numField (o : Option Nat) : '"' ∉ (numField o).data := by
  intro hmem
  have h := (List.all_eq_true.mp (noEdge_numField o)) '"' hmem
  simp [plainChar] at h

/-! ## Claims about the export encoder: quoting and field shapes -/

/-- C1 (code behaviour at the failing input): the encoder wraps a
name containing a literal double quote naively, emitting the
embedded quote verbatim rather than doubled; the RFC 4180 encoding
of the same value differs. -/
theorem c1_embedded_quote_not_doubled :
    leadRow ⟨"a\"b", none, none, none, none, none, none⟩ =
      "\"a\"b\",\"\",\"\",\"\",,,\"\"" ∧
    quoteFieldEsc "a\"b" = "\"a\"\"b\"" ∧
    quoteField "a\"b" ≠ quoteFieldEsc "a\"b" := by
  refine ⟨rfl, rfl, ?_⟩
  decide

/-- C3: an empty submitted query makes `startScraping` show the
validation error and return at once: the trace is exactly the error
message, no fetch request is ever issued, and the only state change
is the rendered error text. -/
theorem c3_empty_query_no_fetch (resp : ServerBehavior) (st : ClientState) :
    scrapeEvents "" resp = [UiEvent.errorShown "Please enter a search query"] ∧
    UiEvent.fetchIssued ∉ scrapeEvents "" resp ∧
    startScraping "" resp st =
      { st with lastError := some "Please enter a search query" } := by
  refine ⟨by simp [scrapeEvents], ?_, ?_⟩
  · simp [scrapeEvents]
  · simp [startScraping, scrapeEvents, applyEvent]

/-- C5: in every emitted row, a missing optional text field becomes
the empty quoted cell `""` (columns 1,2,3,6), an absent numeric
value becomes an empty cell (columns 4,5), a present nonzero
numeric value is emitted as its bare decimal representation, and
the numeric cells never contain a double quote (they are
unquoted). -/
theorem c5_missing_fields_and_unquoted_numerics (l : Lead) :
    (l.address = none → (leadCells l)[1]? = some "\"\"") ∧
    (l.phone = none → (leadCells l)[2]? = some "\"\"") ∧
    (l.website = none → (leadCells l)[3]? = some "\"\"") ∧
    (l.category = none → (leadCells l)[6]? = some "\"\"") ∧
    (l.rating = none → (leadCells l)[4]? = some "") ∧
    (l.reviews_count = none → (leadCells l)[5]? = some "") ∧
    (∀ n, l.rating = some n → n ≠ 0 → (leadCells l)[4]? = some (Nat.repr n)) ∧
    (∀ s, (leadCells l)[4]? = some s → '"' ∉ s.data) ∧
    (∀ s, (leadCells l)[5]? = some s → '"' ∉ s.data) := by
  refine ⟨?_, ?_, ?_, ?_, ?_, ?_, ?_, ?_, ?_⟩
  · intro h; simp [leadCells, h, jsOrEmpty, quoteField]
  · intro h; simp [leadCells, h, jsOrEmpty, quoteField]
  · intro h; simp [leadCells, h, jsOrEmpty, quoteField]
  · intro h; simp [leadCells, h, jsOrEmpty, quoteField]
  · intro h; simp [leadCells, h, numField]
  · intro h; simp [leadCells, h, numField]
  · intro n h hn; simp [leadCells, h, numField, hn]
  · intro s hs
    have : s = numField l.rating := by simpa [leadCells] using hs.symm
    rw [this]; exact quote_not_mem_numField _
  · intro s hs
    have : s = numField l.reviews_count := by simpa [leadCells] using hs.symm
    rw [this]; exact quote_not_mem_numField _

/-- Witness for C5 at a concrete lead with all optional fields
absent. -/
theorem c5_witness :
    (leadCells ⟨"A", none, none, none, none, none, none⟩)[1]? = some "\"\"" ∧
    (leadCells ⟨"A", none, none, none, none, none, none⟩)[4]? = some "" :=
  ⟨(c5_missing_fields_and_unquoted_numerics _).1 rfl,
   (c5_missing_fields_and_unquoted_numerics
      ⟨"A", none, none, none, none, none, none⟩).2.2.2.2.1 rfl⟩

/-- C6 (counterexample): exporting an empty collection does not
produce the header-only CSV document the claim describes — no CSV
document is produced at all. -/
theorem c6_counterexample :
    exportToCSV [] ≠ ExportResult.csv csvHeader := by
  simp [exportToCSV]

/-- C6 (amended): exporting an empty Result Collection produces no
CSV document; `exportToCSV` returns early with the "No leads to
export" alert. -/
theorem c6_empty_export_refused :
    exportToCSV [] = ExportResult.noLeadsAlert := rfl

/-- C7: a failed scrape (error reply or thrown fetch) leaves the
stored lead collection untouched, so a subsequent export emits
exactly the previously stored data. -/
theorem c7_failure_preserves_leads (q : String) (resp : ServerBehavior)
    (st : ClientState) (h : isFailedResponse resp = true) :
    (startScraping q resp st).leads = st.leads ∧
    exportToCSV (startScraping q resp st).leads = exportToCSV st.leads := by
  have hleads : (startScraping q resp st).leads = st.leads := by
    by_cases hq : q = ""
    · simp [startScraping, scrapeEvents, hq, applyEvent]
    · cases resp with
      | networkFailure =>
          simp [startScraping, scrapeEvents, hq, applyEvent]
      | reply d =>
          have he : jsTruthyStr d.error = true := h
          simp [startScraping, scrapeEvents, hq, he, applyEvent]
  exact ⟨hleads, by rw [hleads]⟩

/-- Witness for C7: a network failure on a nonempty prior
collection. -/
theorem c7_witness :
    (startScraping "pizza" ServerBehavior.networkFailure
        ⟨[⟨"A", none, none, none, none, none, none⟩], false, none, none, true⟩).leads =
      [⟨"A", none, none, none, none, none, none⟩] :=
  (c7_failure_preserves_leads "pizza" ServerBehavior.networkFailure
      ⟨[⟨"A", none, none, none, none, none, none⟩], false, none, none, true⟩ rfl).1

/-- C8: on every path of `startScraping` — validation failure,
error reply, network failure, success — the submit button is
disabled from before the fetch is issued until the operation
completes or fails, and is re-enabled at the end whenever a fetch
happened; the monitor `exclusionCheck` certifies this on the whole
trace. -/
theorem c8_single_flight_exclusion (q : String) (resp : ServerBehavior) :
    exclusionCheck (scrapeEvents q resp) = true := by
  by_cases hq : q = ""
  · simp [scrapeEvents, hq, exclusionCheck, exclStep]
  · cases resp with
    | networkFailure =>
        simp [scrapeEvents, hq, exclusionCheck, exclStep]
    | reply d =>
        by_cases he : jsTruthyStr d.error
        · simp [scrapeEvents, hq, he, exclusionCheck, exclStep]
        · simp [scrapeEvents, hq, he, exclusionCheck, exclStep]

/-- C9: a present-but-zero `rating` or `reviews_count` is exported
exactly like an absent one — the emitted row is identical to the
row of the same lead with the field removed, so zero and missing
are indistinguishable in the CSV. -/
theorem c9_zero_numeric_indistinguishable (l : Lead) :
    (l.rating = some 0 → leadRow l = leadRow { l with rating := none }) ∧
    (l.reviews_count = some 0 →
      leadRow l = leadRow { l with reviews_count := none }) ∧
    numField (some 0) = numField none := by
  refine ⟨?_, ?_, rfl⟩
  · intro h; simp [leadRow, leadCells, h, numField]
  · intro h; simp [leadRow, leadCells, h, numField]

/-- Witness for C9 at a concrete lead with `rating = 0`. -/
theorem c9_witness :
    leadRow ⟨"A", none, none, none, some 0, none, none⟩ =
      leadRow ⟨"A", none, none, none, none, none, none⟩ :=
  (c9_zero_numeric_indistinguishable ⟨"A", none, none, none, some 0, none, none⟩).1 rfl

/-- C10: the client-side validation rejects exactly the empty query
string — the fetch is issued if and only if the query is nonempty;
in particular every whitespace-only nonempty query passes the check
and the request is sent. -/
theorem c10_only_empty_rejected (q : String) (resp : ServerBehavior) :
    (UiEvent.fetchIssued ∈ scrapeEvents q resp ↔ q ≠ "") ∧
    (q ≠ "" → q.data.all Char.isWhitespace = true →
      UiEvent.fetchIssued ∈ scrapeEvents q resp) := by
  constructor
  · constructor
    · intro hmem hq
      rw [hq] at hmem
      simp [scrapeEvents] at hmem
    · intro hq
      cases resp with
      | networkFailure => simp [scrapeEvents, hq]
      | reply d =>
          by_cases he : jsTruthyStr d.error <;> simp [scrapeEvents, hq, he]
  · intro hq _
    cases resp with
    | networkFailure => simp [scrapeEvents, hq]
    | reply d =>
        by_cases he : jsTruthyStr d.error <;> simp [scrapeEvents, hq, he]

/-- Witness for C10: the single-space query is not rejected; the
request is issued. -/
theorem c10_witness :
    UiEvent.fetchIssued ∈ scrapeEvents " " ServerBehavior.networkFailure :=
  (c10_only_empty_rejected " " ServerBehavior.networkFailure).2 (by decide) (by decide)

/-! ## Parser lemmas: fragments of the encoded document -/

lemma pstep_comma (m : PMode) (f : List Char) (r : List (List Char))
    (rs : List (List (List Char))) (hm : m ≠ PMode.quoted) :
    pstep ⟨m, f, r, rs⟩ ',' = ⟨PMode.start, [], r ++ [f], rs⟩ := by
  cases m with
  | quoted => exact absurd rfl hm
  | closed => simp [pstep, flushField]
  | start => simp [pstep, flushField]
  | unquoted => simp [pstep, flushField]

lemma pstep_newline (m : PMode) (f : List Char) (r : List (List Char))
    (rs : List (List (List Char))) (hm : m ≠ PMode.quoted) :
    pstep ⟨m, f, r, rs⟩ '\n' = ⟨PMode.start, [], [], rs ++ [r ++ [f]]⟩ := by
  cases m with
  | quoted => exact absurd rfl hm
  | closed => simp [pstep, flushRow]
  | start => simp [pstep, flushRow]
  | unquoted => simp [pstep, flushRow]

lemma foldl_pstep_escQ (s : List Char) :
    ∀ (f : List Char) (r : List (List Char)) (rs : List (List (List Char))),
    List.foldl pstep ⟨PMode.quoted, f, r, rs⟩ (escQ s) = ⟨PMode.quoted, f ++ s, r, rs⟩ := by
  induction s with
  | nil => intro f r rs; simp [escQ]
  | cons c t ih =>
      intro f r rs
      by_cases hc : c = '"'
      · subst hc
        rw [show escQ ('"' :: t) = '"' :: '"' :: escQ t from by simp [escQ]]
        simp only [List.foldl_cons]
        rw [show pstep ⟨PMode.quoted, f, r, rs⟩ '"' = ⟨PMode.closed, f, r, rs⟩ from by
          simp [pstep]]
        rw [show pstep ⟨PMode.closed, f, r, rs⟩ '"' =
            ⟨PMode.quoted, f ++ ['"'], r, rs⟩ from by simp [pstep]]
        rw [ih]
        simp
      · rw [show escQ (c :: t) = c :: escQ t from by simp [escQ, hc]]
        simp only [List.foldl_cons]
        rw [show pstep ⟨PMode.quoted, f, r, rs⟩ c = ⟨PMode.quoted, f ++ [c], r, rs⟩ from by
          simp [pstep, hc]]
        rw [ih]
        simp

/-- A quoted field with RFC 4180 doubling parses back to its raw
value. -/
lemma fieldEnc_quotedEsc (s : List Char) :
    FieldEnc ('"' :: (escQ s ++ ['"'])) s := by
  intro f r rs
  refine ⟨PMode.closed, by simp, ?_⟩
  simp only [List.foldl_cons]
  rw [show pstep ⟨PMode.start, f, r, rs⟩ '"' = ⟨PMode.quoted, f, r, rs⟩ from by simp [pstep]]
  rw [List.foldl_append, foldl_pstep_escQ]
  simp only [List.foldl_cons, List.foldl_nil]
  rw [show pstep ⟨PMode.quoted, f ++ s, r, rs⟩ '"' = ⟨PMode.closed, f ++ s, r, rs⟩ from by
    simp [pstep]]

lemma escQ_eq_self (s : List Char) (h : ∀ c ∈ s, c ≠ '"') : escQ s = s := by
  induction s with
  | nil => rfl
  | cons c t ih =>
      rw [show escQ (c :: t) = c :: escQ t from by
        simp [escQ, h c (List.mem_cons_self c t)]]
      rw [ih fun x hx => h x (List.mem_cons_of_mem c hx)]

lemma plainChar_spec (c : Char) (h : plainChar c = true) :
    c ≠ '"' ∧ c ≠ ',' ∧ c ≠ '\n' := by
  simp only [plainChar, Bool.not_eq_eq_eq_not, Bool.not_true, Bool.or_eq_false_iff,
    beq_eq_false_iff_ne] at h
  exact ⟨h.1.1, h.1.2, h.2⟩

lemma foldl_pstep_plain (s : List Char) (hs : ∀ c ∈ s, plainChar c = true) :
    ∀ (m : PMode), (m = PMode.start ∨ m = PMode.unquoted) →
    ∀ (f : List Char) (r : List (List Char)) (rs : List (List (List Char))),
    ∃ m2, (m2 = PMode.start ∨ m2 = PMode.unquoted) ∧
      List.foldl pstep ⟨m, f, r, rs⟩ s = ⟨m2, f ++ s, r, rs⟩ := by
  induction s with
  | nil => intro m hm f r rs; exact ⟨m, hm, by simp⟩
  | cons c t ih =>
      intro m hm f r rs
      obtain ⟨hc1, hc2, hc3⟩ := plainChar_spec c (hs c (List.mem_cons_self c t))
      have hstep : pstep ⟨m, f, r, rs⟩ c = ⟨PMode.unquoted, f ++ [c], r, rs⟩ := by
        rcases hm with rfl | rfl <;> simp [pstep, hc1, hc2, hc3]
      rw [List.foldl_cons, hstep]
      obtain ⟨m2, hm2, hfold⟩ :=
        ih (fun x hx => hs x (List.mem_cons_of_mem c hx)) PMode.unquoted (Or.inr rfl)
          (f ++ [c]) r rs
      exact ⟨m2, hm2, by rw [hfold]; simp⟩

/-- A field free of special characters parses back unquoted. -/
lemma fieldEnc_plain (v : List Char) (hv : ∀ c ∈ v, plainChar c = true) :
    FieldEnc v v := by
  intro f r rs
  obtain ⟨m2, hm2, hfold⟩ := foldl_pstep_plain v hv PMode.start (Or.inl rfl) f r rs
  refine ⟨m2, ?_, hfold⟩
  rcases hm2 with rfl | rfl <;> simp

lemma rowEnc_single (e v : List Char) (h : FieldEnc e v) : RowEnc e [v] := by
  intro r rs
  obtain ⟨m, hm, hf⟩ := h [] r rs
  exact ⟨m, v, [], hm, rfl, by rw [hf]; simp⟩

lemma rowEnc_cons (e v e2 : List Char) (vs : List (List Char))
    (h : FieldEnc e v) (h2 : RowEnc e2 vs) :
    RowEnc (e ++ ',' :: e2) (v :: vs) := by
  intro r rs
  obtain ⟨m, hm, hf⟩ := h [] r rs
  obtain ⟨m2, f2, rest2, hm2, hv2, hf2⟩ := h2 (r ++ [v]) rs
  refine ⟨m2, f2, v :: rest2, hm2, by rw [List.cons_append, hv2], ?_⟩
  rw [List.foldl_append]
  simp only [List.nil_append] at hf
  rw [hf]
  simp only [List.foldl_cons]
  rw [pstep_comma m v r rs hm]
  rw [hf2]
  simp

lemma csvEnc_single (e : List Char) (vs : List (List Char)) (h : RowEnc e vs) :
    CsvEnc e [vs] := by
  intro rs
  obtain ⟨m, f, rest, hm, hv, hf⟩ := h [] rs
  rw [hf]
  simp only [finishParse, List.nil_append]
  rw [hv]

lemma csvEnc_cons (e : List Char) (vs : List (List Char)) (e2 : List Char)
    (out : List (List (List Char))) (h : RowEnc e vs) (h2 : CsvEnc e2 out) :
    CsvEnc (e ++ '\n' :: e2) (vs :: out) := by
  intro rs
  obtain ⟨m, f, rest, hm, hv, hf⟩ := h [] rs
  rw [List.foldl_append]
  rw [hf]
  simp only [List.foldl_cons]
  rw [pstep_newline m f ([] ++ rest) rs hm]
  rw [h2 (rs ++ [[] ++ rest ++ [f]])]
  simp only [List.nil_append]
  rw [hv]
  simp

/-! ## Joining fragments: rows and documents -/

lemma joinSep_cons_cons (sep x y : List Char) (t : List (List Char)) :
    joinSep sep (x :: y :: t) = x ++ sep ++ joinSep sep (y :: t) := rfl

lemma rowEnc_joinSep (es vs : List (List Char)) (h : List.Forall₂ FieldEnc es vs)
    (hne : es ≠ []) : RowEnc (joinSep [','] es) vs := by
  induction h with
  | nil => exact absurd rfl hne
  | @cons e v es2 vs2 hf htail ih =>
      cases htail with
      | nil => simpa [joinSep] using rowEnc_single e v hf
      | @cons e2 v2 es3 vs3 hf2 htail2 =>
          rw [joinSep_cons_cons]
          rw [show e ++ [','] ++ joinSep [','] (e2 :: es3) =
              e ++ ',' :: joinSep [','] (e2 :: es3) from by simp]
          exact rowEnc_cons _ _ _ _ hf (ih (by simp))

lemma csvEnc_joinSep (es : List (List Char)) (out : List (List (List Char)))
    (h : List.Forall₂ RowEnc es out) (hne : es ≠ []) :
    CsvEnc (joinSep ['\n'] es) out := by
  induction h with
  | nil => exact absurd rfl hne
  | @cons e vs es2 out2 hr htail ih =>
      cases htail with
      | nil => simpa [joinSep] using csvEnc_single e vs hr
      | @cons e2 vs2 es3 out3 hr2 htail2 =>
          rw [joinSep_cons_cons]
          rw [show e ++ ['\n'] ++ joinSep ['\n'] (e2 :: es3) =
              e ++ '\n' :: joinSep ['\n'] (e2 :: es3) from by simp]
          exact csvEnc_cons _ _ _ _ hr (ih (by simp))

/-! ## Relating `String.intercalate` to `joinSep` -/

lemma intercalate_go_data (s : String) : ∀ (as : List String) (acc : String),
    (String.intercalate.go acc s as).data =
      acc.data ++ (as.map fun a => s.data ++ a.data).flatten := by
  intro as
  induction as with
  | nil => intro acc; simp [String.intercalate.go]
  | cons a t ih =>
      intro acc
      rw [show String.intercalate.go acc s (a :: t) =
          String.intercalate.go (acc ++ s ++ a) s t from rfl]
      rw [ih]
      simp [String.data_append]

lemma joinSep_eq_flatten (sep : List Char) : ∀ (x : List Char) (xs : List (List Char)),
    joinSep sep (x :: xs) = x ++ (xs.map fun y => sep ++ y).flatten := by
  intro x xs
  induction xs generalizing x with
  | nil => simp [joinSep]
  | cons y t ih =>
      rw [joinSep_cons_cons, ih y]
      simp

lemma intercalate_data (s : String) (l : List String) :
    (String.intercalate s l).data = joinSep s.data (l.map String.data) := by
  cases l with
  | nil => rfl
  | cons a as =>
      rw [show String.intercalate s (a :: as) = String.intercalate.go a s as from rfl]
      rw [intercalate_go_data]
      rw [show (a :: as).map String.data = a.data :: as.map String.data from rfl]
      rw [joinSep_eq_flatten]
      congr 1
      rw [List.map_map]
      rfl

/-! ## The encoded cells parse back to the lead data -/

lemma noEdge_spec (s : String) (h : noEdge s = true) :
    ∀ c ∈ s.data, plainChar c = true :=
  List.all_eq_true.mp h

lemma noEdge_no_quote (s : String) (h : noEdge s = true) : ∀ c ∈ s.data, c ≠ '"' :=
  fun c hc => (plainChar_spec c (noEdge_spec s h c hc)).1

lemma quoteField_data (s : String) :
    (quoteField s).data = '"' :: (s.data ++ ['"']) := by
  simp [quoteField, String.data_append]

lemma quoteFieldEsc_data (s : String) :
    (quoteFieldEsc s).data = '"' :: (escQ s.data ++ ['"']) := by
  simp [quoteFieldEsc, escapeQuotes, String.data_append]

lemma fieldEnc_quoteField (s : String) (h : noEdge s = true) :
    FieldEnc (quoteField s).data s.data := by
  rw [quoteField_data]
  have he := fieldEnc_quotedEsc s.data
  rwa [escQ_eq_self s.data (noEdge_no_quote s h)] at he

lemma fieldEnc_quoteFieldEsc (s : String) :
    FieldEnc (quoteFieldEsc s).data s.data := by
  rw [quoteFieldEsc_data]
  exact fieldEnc_quotedEsc s.data

lemma fieldEnc_numField (o : Option Nat) :
    FieldEnc (numField o).data (numField o).data :=
  fieldEnc_plain _ (List.all_eq_true.mp (noEdge_numField o))

lemma leadRow_data (l : Lead) :
    (leadRow l).data = joinSep [','] ((leadCells l).map String.data) := by
  rw [leadRow, intercalate_data]

lemma leadRowFixed_data (l : Lead) :
    (leadRowFixed l).data = joinSep [','] ((leadCellsFixed l).map String.data) := by
  rw [leadRowFixed, intercalate_data]

lemma rowEnc_leadRow (l : Lead) (h : edgeFreeLead l = true) :
    RowEnc (leadRow l).data ((leadFields l).map String.data) := by
  rw [leadRow_data]
  simp only [edgeFreeLead, Bool.and_eq_true] at h
  obtain ⟨⟨⟨⟨h1, h2⟩, h3⟩, h4⟩, h5⟩ := h
  apply rowEnc_joinSep
  · simp only [leadCells, leadFields, List.map_cons, List.map_nil]
    exact List.Forall₂.cons (fieldEnc_quoteField _ h1)
      (List.Forall₂.cons (fieldEnc_quoteField _ h2)
        (List.Forall₂.cons (fieldEnc_quoteField _ h3)
          (List.Forall₂.cons (fieldEnc_quoteField _ h4)
            (List.Forall₂.cons (fieldEnc_numField _)
              (List.Forall₂.cons (fieldEnc_numField _)
                (List.Forall₂.cons (fieldEnc_quoteField _ h5) List.Forall₂.nil))))))
  · simp [leadCells]

lemma rowEnc_leadRowFixed (l : Lead) :
    RowEnc (leadRowFixed l).data ((leadFields l).map String.data) := by
  rw [leadRowFixed_data]
  apply rowEnc_joinSep
  · simp only [leadCellsFixed, leadFields, List.map_cons, List.map_nil]
    exact List.Forall₂.cons (fieldEnc_quoteFieldEsc _)
      (List.Forall₂.cons (fieldEnc_quoteFieldEsc _)
        (List.Forall₂.cons (fieldEnc_quoteFieldEsc _)
          (List.Forall₂.cons (fieldEnc_quoteFieldEsc _)
            (List.Forall₂.cons (fieldEnc_numField _)
              (List.Forall₂.cons (fieldEnc_numField _)
                (List.Forall₂.cons (fieldEnc_quoteFieldEsc _) List.Forall₂.nil))))))
  · simp [leadCellsFixed]

lemma rowEnc_header : RowEnc csvHeader.data (headers.map String.data) := by
  rw [csvHeader, intercalate_data]
  apply rowEnc_joinSep
  · simp only [headers, List.map_cons, List.map_nil]
    exact List.Forall₂.cons (fieldEnc_plain _ (by decide))
      (List.Forall₂.cons (fieldEnc_plain _ (by decide))
        (List.Forall₂.cons (fieldEnc_plain _ (by decide))
          (List.Forall₂.cons (fieldEnc_plain _ (by decide))
            (List.Forall₂.cons (fieldEnc_plain _ (by decide))
              (List.Forall₂.cons (fieldEnc_plain _ (by decide))
                (List.Forall₂.cons (fieldEnc_plain _ (by decide)) List.Forall₂.nil))))))
  · simp [headers]

lemma csvContent_data (leads : List Lead) :
    (csvContent leads).data =
      joinSep ['\n'] (csvHeader.data :: leads.map fun l => (leadRow l).data) := by
  rw [csvContent, intercalate_data]
  rw [List.map_cons, List.map_map]
  rfl

lemma csvContentFixed_data (leads : List Lead) :
    (csvContentFixed leads).data =
      joinSep ['\n'] (csvHeader.data :: leads.map fun l => (leadRowFixed l).data) := by
  rw [csvContentFixed, intercalate_data]
  rw [List.map_cons, List.map_map]
  rfl

lemma forall₂_rows (leads : List Lead) (h : ∀ l ∈ leads, edgeFreeLead l = true) :
    List.Forall₂ RowEnc (leads.map fun l => (leadRow l).data)
      (leads.map fun l => (leadFields l).map String.data) := by
  induction leads with
  | nil => exact List.Forall₂.nil
  | cons l t ih =>
      exact List.Forall₂.cons (rowEnc_leadRow l (h l (List.mem_cons_self l t)))
        (ih fun x hx => h x (List.mem_cons_of_mem l hx))

lemma forall₂_rowsFixed (leads : List Lead) :
    List.Forall₂ RowEnc (leads.map fun l => (leadRowFixed l).data)
      (leads.map fun l => (leadFields l).map String.data) := by
  induction leads with
  | nil => exact List.Forall₂.nil
  | cons l t ih => exact List.Forall₂.cons (rowEnc_leadRowFixed l) ih

lemma parseChars_csvContent (leads : List Lead)
    (h : ∀ l ∈ leads, edgeFreeLead l = true) :
    parseCSVChars (csvContent leads).data =
      (headers.map String.data) :: leads.map fun l => (leadFields l).map String.data := by
  rw [csvContent_data]
  have hc : CsvEnc (joinSep ['\n'] (csvHeader.data :: leads.map fun l => (leadRow l).data))
      ((headers.map String.data) :: leads.map fun l => (leadFields l).map String.data) := by
    apply csvEnc_joinSep
    · exact List.Forall₂.cons rowEnc_header (forall₂_rows leads h)
    · simp
  have hr := hc []
  simpa [parseCSVChars] using hr

lemma parseChars_csvContentFixed (leads : List Lead) :
    parseCSVChars (csvContentFixed leads).data =
      (headers.map String.data) :: leads.map fun l => (leadFields l).map String.data := by
  rw [csvContentFixed_data]
  have hc : CsvEnc
      (joinSep ['\n'] (csvHeader.data :: leads.map fun l => (leadRowFixed l).data))
      ((headers.map String.data) :: leads.map fun l => (leadFields l).map String.data) := by
    apply csvEnc_joinSep
    · exact List.Forall₂.cons rowEnc_header (forall₂_rowsFixed leads)
    · simp
  have hr := hc []
  simpa [parseCSVChars] using hr

lemma map_mk_data (l : List String) : (l.map String.data).map String.mk = l := by
  rw [List.map_map]
  have hcomp : String.mk ∘ String.data = id := funext fun s => rfl
  rw [hcomp, List.map_id]

lemma parseCSV_csvContent (leads : List Lead)
    (h : ∀ l ∈ leads, edgeFreeLead l = true) :
    parseCSV (csvContent leads) = headers :: leads.map leadFields := by
  rw [parseCSV, parseChars_csvContent leads h]
  rw [List.map_cons, map_mk_data]
  congr 1
  rw [List.map_map]
  simp only [Function.comp_def, map_mk_data]

lemma parseCSV_csvContentFixed (leads : List Lead) :
    parseCSV (csvContentFixed leads) = headers :: leads.map leadFields := by
  rw [parseCSV, parseChars_csvContentFixed leads]
  rw [List.map_cons, map_mk_data]
  congr 1
  rw [List.map_map]
  simp only [Function.comp_def, map_mk_data]

/-- C2: encoding then parsing round-trips.  With the encoder as
written, whenever no field contains a CSV-special character
(comma, double quote, newline), parsing the produced CSV text
yields the header row and, field for field, every lead's data
under the JavaScript string coercions; with the RFC-4180 escaping
fix applied, the round-trip holds for every collection, embedded
commas, quotes and newlines included. -/
theorem c2_csv_roundtrip (leads : List Lead) :
    ((∀ l ∈ leads, edgeFreeLead l = true) →
      parseCSV (csvContent leads) = headers :: leads.map leadFields) ∧
    parseCSV (csvContentFixed leads) = headers :: leads.map leadFields :=
  ⟨fun h => parseCSV_csvContent leads h, parseCSV_csvContentFixed leads⟩

/-- Witness for C2: a concrete edge-free lead round-trips through
the source encoder, and a lead whose name contains a literal double
quote and a comma round-trips through the fixed encoder. -/
theorem c2_witness :
    parseCSV (csvContent [⟨"Joe Cafe", some "1 Main St", some "555", none,
        some 4, some 10, some "Cafe"⟩]) =
      headers :: [⟨"Joe Cafe", some "1 Main St", some "555", none,
        some 4, some 10, some "Cafe"⟩].map leadFields ∧
    parseCSV (csvContentFixed [⟨"He said \"hi\", ok", some "a,b", none, none,
        none, none, none⟩]) =
      headers :: [⟨"He said \"hi\", ok", some "a,b", none, none,
        none, none, none⟩].map leadFields :=
  ⟨(c2_csv_roundtrip [⟨"Joe Cafe", some "1 Main St", some "555", none,
      some 4, some 10, some "Cafe"⟩]).1 (by decide),
   (c2_csv_roundtrip [⟨"He said \"hi\", ok", some "a,b", none, none,
      none, none, none⟩]).2⟩

/-- C4: the produced CSV text begins with exactly the header row
`Name,Address,Phone,Website,Rating,Reviews,Category`, followed by
one row per lead in collection order — parsed, the document has
`1 + length` rows, the first is the header, and row `i + 1` is the
fields of lead `i`, with no reordering and no filtering. -/
theorem c4_header_then_rows_in_order (leads : List Lead)
    (h : ∀ l ∈ leads, edgeFreeLead l = true) :
    csvHeader = "Name,Address,Phone,Website,Rating,Reviews,Category" ∧
    (parseCSV (csvContent leads)).head? = some headers ∧
    (parseCSV (csvContent leads)).length = leads.length + 1 ∧
    (∀ i : Nat, (parseCSV (csvContent leads))[i + 1]? = (leads[i]?).map leadFields) ∧
    (leads ≠ [] → ∃ rest, csvContent leads = csvHeader ++ "\n" ++ rest) := by
  have hp := parseCSV_csvContent leads h
  refine ⟨rfl, by rw [hp]; rfl, by rw [hp]; simp, ?_, ?_⟩
  · intro i
    rw [hp]
    simp
  · intro hne
    obtain ⟨l0, t, rfl⟩ := List.exists_cons_of_ne_nil hne
    refine ⟨String.intercalate "\n" ((l0 :: t).map leadRow), ?_⟩
    apply String.ext
    rw [String.data_append, String.data_append, intercalate_data, csvContent_data]
    simp only [List.map_cons, List.map_map]
    rw [joinSep_cons_cons]
    simp [Function.comp_def]

/-- Witness for C4 at a concrete one-lead collection. -/
theorem c4_witness :
    (parseCSV (csvContent [⟨"Joe", none, none, none, none, none, none⟩])).head? =
      some headers ∧
    (∃ rest, csvContent [⟨"Joe", none, none, none, none, none, none⟩] =
      csvHeader ++ "\n" ++ rest) :=
  ⟨(c4_header_then_rows_in_order [⟨"Joe", none, none, none, none, none, none⟩]
      (by decide)).2.1,
   (c4_header_then_rows_in_order [⟨"Joe", none, none, none, none, none, none⟩]
      (by decide)).2.2.2.2 (by decide)⟩

end Scraper
